import Mathlib

/-!
Verification of the Video Caption Suite processing/progress model.

The definitions below are a shallow embedding of the repository
frontend sources (`frontend/src/types/progress.ts`, the Pinia progress
store `frontend/src/stores/progressStore.ts`, and the API composable
`frontend/src/composables/useApi.ts`).  TypeScript `number` fields are
modelled as `ℚ`, nullable strings as `Option String`, and JavaScript
object-spread updates as field-wise `Option.getD` merges.  Components
of the backend Processing Manager that are not part of the source tree
(work queue, worker loop, start/stop handlers) are modelled from the
specification and are marked as such in their doc comments.
-/

/-- The `ProcessingStage` union from `frontend/src/types/progress.ts`:
the union of idle, loading_model, processing, complete and error. -/
inductive ProcessingStage where
  | idle
  | loading_model
  | processing
  | complete
  | error
  deriving DecidableEq, Repr, Fintype

/-- The `ProcessingSubstage` union from `frontend/src/types/progress.ts`:
the union of idle, extracting_frames, encoding and generating. -/
inductive ProcessingSubstage where
  | idle
  | extracting_frames
  | encoding
  | generating
  deriving DecidableEq, Repr, Fintype

/-- The `WorkerProgress` interface from `frontend/src/types/progress.ts`. -/
structure WorkerProgress where
  worker_id : ℕ
  device : String
  current_video : Option String
  substage : ProcessingSubstage
  substage_progress : ℚ
  deriving DecidableEq, Repr

/-- The `ProgressState` interface from `frontend/src/types/progress.ts`. -/
structure ProgressState where
  stage : ProcessingStage
  current_video : Option String
  video_index : ℚ
  total_videos : ℚ
  tokens_generated : ℚ
  tokens_per_sec : ℚ
  model_loaded : Bool
  vram_used_gb : ℚ
  substage : ProcessingSubstage
  substage_progress : ℚ
  error_message : Option String
  elapsed_time : ℚ
  batch_size : ℚ
  workers : List WorkerProgress
  completed_videos : ℚ
  deriving DecidableEq, Repr

/-- The field names of the `ProgressState` interface, in source order
(`frontend/src/types/progress.ts`, lines 12-29). -/
def progressStateFields : List String :=
  ["stage", "current_video", "video_index", "total_videos",
   "tokens_generated", "tokens_per_sec", "model_loaded", "vram_used_gb",
   "substage", "substage_progress", "error_message", "elapsed_time",
   "batch_size", "workers", "completed_videos"]

/-- The `initialProgressState` constant from `frontend/src/types/progress.ts`. -/
def initialProgressState : ProgressState where
  stage := .idle
  current_video := none
  video_index := 0
  total_videos := 0
  tokens_generated := 0
  tokens_per_sec := 0
  model_loaded := false
  vram_used_gb := 0
  substage := .idle
  substage_progress := 0
  error_message := none
  elapsed_time := 0
  batch_size := 1
  workers := []
  completed_videos := 0

/-- JavaScript truthiness of `w.current_video` in the filter over
workers used by the store: a string is truthy iff it is non-null
and non-empty. -/
def WorkerProgress.isActive (w : WorkerProgress) : Bool :=
  match w.current_video with
  | none => false
  | some s => !s.isEmpty

/-- The active-progress summand of the `overallProgress` getter
(`frontend/src/stores/progressStore.ts`): with a non-empty `workers`
list, the sum of `substage_progress` over workers with a truthy
`current_video`; otherwise the single `substage_progress` field
(single-GPU fallback). -/
def activeSum (s : ProgressState) : ℚ :=
  if s.workers ≠ [] then
    ((s.workers.filter WorkerProgress.isActive).map
      WorkerProgress.substage_progress).sum
  else
    s.substage_progress

/-- The `overallProgress` computed getter of the Pinia progress store
(`frontend/src/stores/progressStore.ts`, lines 18-36):

```ts
if (state.total_videos === 0) return 0
const completedProgress = state.completed_videos / state.total_videos
let activeProgress = 0
if (state.workers && state.workers.length > 0) {
  const activeWorkers = state.workers.filter(w => w.current_video)
  activeProgress = activeWorkers.reduce((sum, w) => sum + w.substage_progress, 0)
    / state.total_videos
} else {
  activeProgress = state.substage_progress / state.total_videos
}
return Math.min(100, (completedProgress + activeProgress) * 100)
```
-/
def overallProgress (s : ProgressState) : ℚ :=
  if s.total_videos = 0 then 0
  else
    let completedProgress := s.completed_videos / s.total_videos
    let activeProgress := activeSum s / s.total_videos
    min 100 ((completedProgress + activeProgress) * 100)

/-- A progress message as received over the WebSocket and applied with
the spread `state.value = { ...state.value, ...data }` in
`updateFromWebSocket` of the store (`frontend/src/stores/progressStore.ts`,
lines 66-68).  At runtime a message may carry any subset of the
`ProgressState` fields (`Partial<ProgressState>` in the documented
store API), so every field is optional; a `some` field is one present
in the message, a `none` field is absent. -/
structure ProgressMsg where
  stage : Option ProcessingStage := none
  current_video : Option (Option String) := none
  video_index : Option ℚ := none
  total_videos : Option ℚ := none
  tokens_generated : Option ℚ := none
  tokens_per_sec : Option ℚ := none
  model_loaded : Option Bool := none
  vram_used_gb : Option ℚ := none
  substage : Option ProcessingSubstage := none
  substage_progress : Option ℚ := none
  error_message : Option (Option String) := none
  elapsed_time : Option ℚ := none
  batch_size : Option ℚ := none
  workers : Option (List WorkerProgress) := none
  completed_videos : Option ℚ := none

/-- The observable state of the Pinia progress store: the `state` ref
plus the separate `wsConnected` ref (`frontend/src/stores/progressStore.ts`,
lines 7-8). -/
structure ProgressStore where
  state : ProgressState
  wsConnected : Bool

/-- The `updateFromWebSocket(data)` action of the store:
`state.value = { ...state.value, ...data }` — object spread keeps every
stored field that the message does not carry and overwrites every field
it does carry; the `wsConnected` ref is untouched. -/
def updateFromWebSocket (st : ProgressStore) (data : ProgressMsg) : ProgressStore :=
  { st with
    state :=
      { stage := data.stage.getD st.state.stage
        current_video := data.current_video.getD st.state.current_video
        video_index := data.video_index.getD st.state.video_index
        total_videos := data.total_videos.getD st.state.total_videos
        tokens_generated := data.tokens_generated.getD st.state.tokens_generated
        tokens_per_sec := data.tokens_per_sec.getD st.state.tokens_per_sec
        model_loaded := data.model_loaded.getD st.state.model_loaded
        vram_used_gb := data.vram_used_gb.getD st.state.vram_used_gb
        substage := data.substage.getD st.state.substage
        substage_progress := data.substage_progress.getD st.state.substage_progress
        error_message := data.error_message.getD st.state.error_message
        elapsed_time := data.elapsed_time.getD st.state.elapsed_time
        batch_size := data.batch_size.getD st.state.batch_size
        workers := data.workers.getD st.state.workers
        completed_videos := data.completed_videos.getD st.state.completed_videos } }

/-- The `setWsConnected(connected)` action of the store. -/
def setWsConnected (st : ProgressStore) (connected : Bool) : ProgressStore :=
  { st with wsConnected := connected }

/-- The `reset()` action of the store: `state.value = { ...initialProgressState }`;
the `wsConnected` ref is untouched. -/
def reset (st : ProgressStore) : ProgressStore :=
  { st with state := initialProgressState }

/-- The response body type the frontend `stopProcessing` call expects:
`request<{ success: boolean }>` at the stop endpoint in
`frontend/src/composables/useApi.ts`. -/
structure StopResult where
  success : Bool
  deriving DecidableEq, Repr

/-- The field names of the stop response as consumed by the frontend
(`request<{ success: boolean }>` in `useApi.ts`; the current API
reference additionally documents a human-readable `message` string). -/
def frontendStopResponseFields : List String := ["success"]

/-- The `stopProcessing()` function of `frontend/src/composables/useApi.ts`:
`const result = await request<{ success: boolean }>(url);
return result?.success ?? false` — `request` yields `null` on any
failure, modelled as `none`. -/
def stopProcessing (result : Option StopResult) : Bool :=
  (result.map StopResult.success).getD false

/-- Modelled from the spec: the backend start handler
(`backend/api.py`, `POST /api/process/start`) is not under `src/`.
Per spec §3/§6 the manager holds the single global run slot: the
current Job `stage` and the queue of requested videos. -/
structure Manager where
  stage : ProcessingStage
  queued : List String
  deriving DecidableEq, Repr

/-- Modelled from the spec: a Job is active while the manager is
loading the model or processing (§3 "at most one Job may be in
`LoadingModel` or `Processing` at a time"). -/
def Manager.jobActive (m : Manager) : Bool :=
  match m.stage with
  | .loading_model => true
  | .processing => true
  | _ => false

/-- Reply of the start handler: accepted with a total, or the
`409 Conflict` job-conflict rejection documented for
`POST /api/process/start`. -/
inductive StartReply where
  | accepted (total_videos : ℕ)
  | jobConflict
  deriving DecidableEq, Repr

/-- Modelled from the spec: the backend `POST /api/process/start`
handler (not under `src/`).  Per spec §6 "A `StartRequest` while a Job
is active is rejected (job-conflict), not queued" and §7 "rejected
synchronously, no state change"; an accepted request creates the new
Job (stage `loading_model`, queue populated). -/
def handleStart (m : Manager) (video_names : List String) : Manager × StartReply :=
  if m.jobActive then (m, .jobConflict)
  else ({ stage := .loading_model, queued := video_names }, .accepted video_names.length)

/-- Modelled from the spec: the status of a task inside the Work Queue
(§3 Task `status`, restricted to the two states the queue contract
touches: `Queued` and `Assigned` to a worker). The queue implementation
(backend) is not under `src/`. -/
inductive TStatus where
  | queued
  | assigned (w : ℕ)
  deriving DecidableEq, Repr

/-- Modelled from the spec: a queue entry — task identifier
(`video_name`, unique within a Job) plus its status. -/
structure QTask where
  id : String
  status : TStatus
  deriving DecidableEq, Repr

/-- The identifiers of the still-`Queued` tasks, in queue (FIFO) order. -/
def queuedIds (q : List QTask) : List String :=
  (q.filter (fun t => t.status = TStatus.queued)).map QTask.id

/-- Modelled from the spec: `pull()` of the Work Queue (§4.1/§5, not
under `src/`) — an atomic pop: return the first `Queued` task, marking
it `Assigned` to the calling worker in the same step, or `none` if no
`Queued` task remains.  Any interleaving of concurrent pulls is a
sequence of these atomic steps. -/
def pull (w : ℕ) : List QTask → List QTask × Option String
  | [] => ([], none)
  | t :: rest =>
    match t.status with
    | .queued => ({ t with status := .assigned w } :: rest, some t.id)
    | .assigned _ =>
      let (rest2, r) := pull w rest
      (t :: rest2, r)

/-- A sequence of atomic `pull` steps by the listed workers; returns the
final queue and the log of (worker, task id) deliveries. -/
def runPulls : List ℕ → List QTask → List QTask × List (ℕ × String)
  | [], q => (q, [])
  | w :: ws, q =>
    let (q1, r) := pull w q
    let (q2, log) := runPulls ws q1
    match r with
    | some id => (q2, (w, id) :: log)
    | none => (q2, log)

/-- The fresh queue that `enqueue(tasks)` of a Job builds: every requested
task `Queued`, in input order (§4.1). -/
def enqueue (video_names : List String) : List QTask :=
  video_names.map (fun n => { id := n, status := .queued })

/-- Modelled from the spec: the final accounting of a Job run that was
not stopped early (backend Processing Manager, not under `src/`). -/
structure JobResult where
  stage : ProcessingStage
  completed : ℕ
  failed : ℕ
  deriving DecidableEq, Repr

/-- Modelled from the spec: the accounting of the worker loop over the
per-task pipeline outcomes (§4.2): a successful pipeline marks the task
`Done` (counted as completed), a per-task failure marks it `Failed` and
the loop continues to the next task — a single task failure never stops
the run.  `true` = the pipeline of that task succeeds. -/
def processTasks : List Bool → ℕ × ℕ
  | [] => (0, 0)
  | ok :: rest =>
    let (c, f) := processTasks rest
    if ok then (c + 1, f) else (c, f + 1)

/-- Modelled from the spec: a whole Job run (backend Processing
Manager, not under `src/`).  Per §4.3, a job-fatal condition (model
failed to load) drives the Job to `Error` before any task runs;
otherwise every task is processed and `Processing → Complete` fires
exactly when every task is `Done` or `Failed` — per-task failures stay
inside `Processing` and do not produce `Error`. -/
def runJob (loadOk : Bool) (outcomes : List Bool) : JobResult :=
  if loadOk then
    let (c, f) := processTasks outcomes
    { stage := .complete, completed := c, failed := f }
  else
    { stage := .error, completed := 0, failed := 0 }

/-! ### Helper lemmas -/

lemma queuedIds_cons (t : QTask) (q : List QTask) :
    queuedIds (t :: q) =
      if t.status = TStatus.queued then t.id :: queuedIds q else queuedIds q := by
  by_cases h : t.status = TStatus.queued <;> simp [queuedIds, h]

lemma overallProgress_eq (s : ProgressState) (h : s.total_videos ≠ 0) :
    overallProgress s =
      min 100 ((s.completed_videos / s.total_videos
        + activeSum s / s.total_videos) * 100) := by
  simp only [overallProgress, if_neg h]

lemma activeSum_nonneg (s : ProgressState)
    (hw : ∀ w ∈ s.workers, 0 ≤ w.substage_progress)
    (hs : 0 ≤ s.substage_progress) : 0 ≤ activeSum s := by
  unfold activeSum
  split
  · apply List.sum_nonneg
    intro x hx
    simp only [List.mem_map] at hx
    obtain ⟨w, hwmem, rfl⟩ := hx
    exact hw w (List.mem_of_mem_filter hwmem)
  · exact hs

lemma pull_spec (w : ℕ) (q : List QTask) :
    ((pull w q).2 = none ∧ (pull w q).1 = q ∧ queuedIds q = []) ∨
    (∃ id, (pull w q).2 = some id ∧
      queuedIds q = id :: queuedIds (pull w q).1) := by
  induction q with
  | nil => exact Or.inl ⟨rfl, rfl, rfl⟩
  | cons t rest ih =>
    rcases hst : t.status with _ | v
    · right
      refine ⟨t.id, by simp [pull, hst], ?_⟩
      have h1 : pull w (t :: rest) =
          ({ t with status := .assigned w } :: rest, some t.id) := by
        simp [pull, hst]
      rw [h1, queuedIds_cons, if_pos hst, queuedIds_cons, if_neg (by simp)]
    · rcases hpr : pull w rest with ⟨rest2, r2⟩
      have hp : pull w (t :: rest) = (t :: rest2, r2) := by
        simp [pull, hst, hpr]
      rw [hpr] at ih
      simp only at ih
      rcases ih with ⟨h1, h2, h3⟩ | ⟨id, h1, h2⟩
      · left
        subst h1
        subst h2
        refine ⟨by rw [hp], by rw [hp], ?_⟩
        rw [queuedIds_cons, if_neg (by simp [hst]), h3]
      · right
        subst h1
        refine ⟨id, by rw [hp], ?_⟩
        rw [hp, queuedIds_cons, if_neg (by simp [hst]),
          queuedIds_cons, if_neg (by simp [hst]), h2]

lemma runPulls_log (ws : List ℕ) :
    ∀ q : List QTask,
      ((runPulls ws q).2.map Prod.snd) ++ queuedIds (runPulls ws q).1
        = queuedIds q := by
  induction ws with
  | nil => intro q; simp [runPulls]
  | cons w ws ih =>
    intro q
    rcases hpr : pull w q with ⟨q1, r⟩
    rcases pull_spec w q with ⟨h1, h2, _⟩ | ⟨id, h1, h2⟩
    · rw [hpr] at h1 h2
      simp only at h1 h2
      subst h1
      have hrun : runPulls (w :: ws) q = runPulls ws q1 := by
        simp [runPulls, hpr]
      rw [hrun, h2, ih q]
    · rw [hpr] at h1 h2
      simp only at h1 h2
      subst h1
      have hrun : runPulls (w :: ws) q =
          ((runPulls ws q1).1, (w, id) :: (runPulls ws q1).2) := by
        simp [runPulls, hpr]
      rw [hrun]
      simp only [List.map_cons, List.cons_append]
      rw [ih q1, h2]

lemma queuedIds_enqueue (names : List String) :
    queuedIds (enqueue names) = names := by
  induction names with
  | nil => rfl
  | cons n ns ih =>
    simp only [enqueue, List.map_cons] at ih ⊢
    rw [queuedIds_cons, if_pos rfl, ih]

lemma processTasks_eq (l : List Bool) :
    processTasks l = (l.count true, l.count false) := by
  induction l with
  | nil => rfl
  | cons b rest ih =>
    cases b <;> simp [processTasks, ih, List.count_cons]

lemma count_true_add_count_false (l : List Bool) :
    l.count true + l.count false = l.length := by
  induction l with
  | nil => rfl
  | cons b rest ih =>
    cases b <;> simp [List.count_cons] <;> omega

/-! ### Claim theorems -/

/-- A concrete progress state for claim C1: two requested videos, one
completed, no workers listed, no in-flight substage progress. -/
def c1State : ProgressState :=
  { initialProgressState with total_videos := 2, completed_videos := 1 }

/-- C1, counterexample.  The claim says the aggregated overall progress
equals completed/total plus the active substage sum over total, clamped
to the interval [0, 1].  On the state with total_videos = 2 and
completed_videos = 1 the getter returns 50, not the clamped unit value
1/2: the store getter reports a percentage in [0, 100] (clamped above
at 100 by Math.min), not a fraction in [0, 1]. -/
theorem overallProgress_not_unit_clamped :
    overallProgress c1State = 50 ∧
    min 1 (c1State.completed_videos / c1State.total_videos
      + activeSum c1State / c1State.total_videos) = 1 / 2 ∧
    (50 : ℚ) ≠ 1 / 2 := by
  refine ⟨?_, ?_, by norm_num⟩
  · rw [overallProgress_eq c1State (by decide)]
    norm_num [c1State, initialProgressState, activeSum]
  · norm_num [c1State, initialProgressState, activeSum]

/-- C1, amended.  For every progress state with total_videos > 0, the
getter returns 100 times the spec formula
completed/total + (active substage sum)/total, clamped from above to
[0, 100] — equivalently 100 times the formula clamped from above at 1.
The active sum is the sum of substage_progress over workers with a
truthy current_video when the workers list is non-empty, else the
single substage_progress field. -/
theorem overallProgress_percent_clamped (s : ProgressState)
    (h : 0 < s.total_videos) :
    overallProgress s =
      100 * min 1 (s.completed_videos / s.total_videos
        + activeSum s / s.total_videos) := by
  rw [overallProgress_eq s (ne_of_gt h),
    mul_min_of_nonneg _ _ (by norm_num : (0 : ℚ) ≤ 100), mul_one,
    mul_comm (100 : ℚ)]

/-- C1, witness for the amended theorem at the concrete state with
total_videos = 2 and completed_videos = 1. -/
theorem overallProgress_percent_clamped_w :
    (0 : ℚ) < c1State.total_videos ∧
    overallProgress c1State =
      100 * min 1 (c1State.completed_videos / c1State.total_videos
        + activeSum c1State / c1State.total_videos) :=
  ⟨by decide, overallProgress_percent_clamped c1State (by decide)⟩

/-- C2, counterexample.  The claim says the processing stage ranges
over exactly six values including stopped; the ProcessingStage union in
frontend/src/types/progress.ts has exactly five values — idle,
loading_model, processing, complete, error — and no stopped value. -/
theorem processingStage_card_ne_six :
    Fintype.card ProcessingStage = 5 ∧
    ¬ Fintype.card ProcessingStage = 6 := by
  constructor <;> decide

/-- C2, amended.  The Job processing stage ranges over exactly the five
values idle, loading_model, processing, complete and error; there is no
stopped stage value, so the terminal stage values a published snapshot
can take are complete and error only. -/
theorem processingStage_five_values :
    (∀ s : ProcessingStage,
      s = .idle ∨ s = .loading_model ∨ s = .processing ∨
      s = .complete ∨ s = .error) ∧
    Fintype.card ProcessingStage = 5 :=
  ⟨fun s => by cases s <;> simp, by decide⟩

/-- C3, counterexample.  The claim says every ProgressSnapshot carries
the three counters total_videos, completed_videos and failed_videos;
the ProgressState interface in frontend/src/types/progress.ts has no
failed_videos field. -/
theorem progressState_missing_failed_videos :
    ¬ ("total_videos" ∈ progressStateFields ∧
       "completed_videos" ∈ progressStateFields ∧
       "failed_videos" ∈ progressStateFields) := by
  decide

/-- C3, amended.  Every ProgressState carries the counters total_videos
and completed_videos but no failed_videos counter; and in the
spec-modelled job execution (the backend aggregator is not under src/),
every Job that runs all its tasks reaches the terminal stage complete
with completed + failed equal to the number of requested tasks. -/
theorem progressState_counters_terminal_sum :
    ("total_videos" ∈ progressStateFields ∧
     "completed_videos" ∈ progressStateFields ∧
     "failed_videos" ∉ progressStateFields) ∧
    ∀ outcomes : List Bool,
      (runJob true outcomes).stage = ProcessingStage.complete ∧
      (runJob true outcomes).completed + (runJob true outcomes).failed
        = outcomes.length := by
  refine ⟨by decide, fun outcomes => ?_⟩
  have hp := processTasks_eq outcomes
  constructor
  · simp [runJob, hp]
  · simp only [runJob, hp, if_pos]
    exact count_true_add_count_false outcomes

/-- A concrete progress state for claim C4: a degenerate state whose
completed counter (101) exceeds 100 times its total (1); its workers
list is empty and its substage_progress is 0, so every per-worker
substage_progress vacuously lies in [0, 1]. -/
def c4State : ProgressState :=
  { initialProgressState with total_videos := 1, completed_videos := 101 }

/-- C4, counterexample.  The claim asserts, for every progress state
whose per-worker substage_progress values lie in [0, 1], that the
overall progress is at least completed_videos / total_videos.  On the
degenerate state with total_videos = 1 and completed_videos = 101 the
getter is clamped at 100 while the claimed floor is 101, so the claim
as stated (with no bound on the counters) fails. -/
theorem overallProgress_floor_fails_degenerate :
    c4State.workers = [] ∧
    c4State.substage_progress = 0 ∧
    overallProgress c4State = 100 ∧
    c4State.completed_videos / c4State.total_videos = 101 ∧
    ¬ (c4State.completed_videos / c4State.total_videos
        ≤ overallProgress c4State) := by
  refine ⟨rfl, rfl, ?_, by norm_num [c4State, initialProgressState], ?_⟩
  · rw [overallProgress_eq c4State (by decide)]
    norm_num [c4State, initialProgressState, activeSum]
  · rw [overallProgress_eq c4State (by decide)]
    norm_num [c4State, initialProgressState, activeSum]

/-- C4, amended.  For every progress state with 0 < total_videos,
completed_videos ≤ total_videos, nonnegative per-worker
substage_progress (in particular values in [0, 1]) and nonnegative
substage_progress field, the getter — which reports percent — is at
least the completed floor expressed on the same scale,
100 * completed_videos / total_videos; and for fixed total and fixed
worker progress it does not decrease when completed_videos increases,
so progress observed after a task commits as Done or Failed never
regresses below the committed floor. -/
theorem overallProgress_floor_monotone (s : ProgressState)
    (ht : 0 < s.total_videos)
    (hct : s.completed_videos ≤ s.total_videos)
    (hw : ∀ w ∈ s.workers, 0 ≤ w.substage_progress)
    (hs : 0 ≤ s.substage_progress) :
    100 * (s.completed_videos / s.total_videos) ≤ overallProgress s ∧
    ∀ c' : ℚ, s.completed_videos ≤ c' →
      overallProgress s ≤
        overallProgress { s with completed_videos := c' } := by
  have ha : 0 ≤ activeSum s := activeSum_nonneg s hw hs
  have hat : 0 ≤ activeSum s / s.total_videos := div_nonneg ha ht.le
  constructor
  · rw [overallProgress_eq s (ne_of_gt ht)]
    have h1 : s.completed_videos / s.total_videos ≤ 1 :=
      (div_le_one ht).mpr hct
    apply le_min
    · linarith
    · linarith
  · intro c' hcc
    have e1 : ({ s with completed_videos := c' } : ProgressState).total_videos
        = s.total_videos := rfl
    have e3 : activeSum { s with completed_videos := c' } = activeSum s := rfl
    rw [overallProgress_eq s (ne_of_gt ht),
      overallProgress_eq _ (by rw [e1]; exact ne_of_gt ht), e1, e3]
    have e2 : ({ s with completed_videos := c' } : ProgressState).completed_videos
        = c' := rfl
    rw [e2]
    apply min_le_min le_rfl
    have hd : s.completed_videos / s.total_videos ≤ c' / s.total_videos :=
      (div_le_div_iff_of_pos_right ht).mpr hcc
    have := add_le_add_right hd (activeSum s / s.total_videos)
    exact mul_le_mul_of_nonneg_right this (by norm_num)

/-- C4, witness for the amended theorem at the state with
total_videos = 2 and completed_videos = 1, raising the completed
counter to 2. -/
theorem overallProgress_floor_monotone_w :
    100 * (c1State.completed_videos / c1State.total_videos)
      ≤ overallProgress c1State ∧
    overallProgress c1State ≤
      overallProgress { c1State with completed_videos := 2 } := by
  have h := overallProgress_floor_monotone c1State (by decide) (by decide)
    (by intro w hw; simp [c1State, initialProgressState] at hw)
    (by decide)
  exact ⟨h.1, h.2 2 (by decide)⟩

/-- C5, counterexample.  The claim says the stop response reports the
counters videos_completed and videos_remaining; the stop response as
consumed by the frontend (request of a success boolean in
frontend/src/composables/useApi.ts) carries neither counter. -/
theorem stopResponse_no_counters :
    ¬ ("videos_completed" ∈ frontendStopResponseFields ∧
       "videos_remaining" ∈ frontendStopResponseFields) := by
  decide

/-- C5, amended.  The stop response the frontend consumes carries only
a success flag (the current API reference documents success plus a
message string); it reports no videos_completed or videos_remaining
counters, and the stopProcessing call returns exactly that flag, false
when the request fails. -/
theorem stopProcessing_success_only :
    ("success" ∈ frontendStopResponseFields ∧
     "videos_completed" ∉ frontendStopResponseFields ∧
     "videos_remaining" ∉ frontendStopResponseFields) ∧
    stopProcessing none = false ∧
    (∀ b : Bool, stopProcessing (some ⟨b⟩) = b) :=
  ⟨by decide, rfl, fun _ => rfl⟩

/-- C6, confirmed (spec-modelled start handler).  A StartRequest
received while a Job is active (stage loading_model or processing) is
rejected as a job-conflict: the handler returns the manager unchanged —
in particular nothing is added to the queue and no request is retained
for later execution — together with the jobConflict reply. -/
theorem start_conflict_rejected (m : Manager) (vs : List String)
    (h : m.jobActive = true) :
    handleStart m vs = (m, StartReply.jobConflict) := by
  simp [handleStart, h]

/-- C6, witness: a manager mid-processing rejects a start request and
is returned unchanged. -/
theorem start_conflict_rejected_w :
    Manager.jobActive { stage := .processing, queued := [] } = true ∧
    handleStart { stage := .processing, queued := [] } ["a.mp4"]
      = ({ stage := .processing, queued := [] }, StartReply.jobConflict) :=
  ⟨rfl, start_conflict_rejected _ _ rfl⟩

/-- C7, confirmed (spec-modelled Work Queue).  For any number of
workers and any interleaving of atomic pull steps over a Job queue
built from distinct task names, no task identifier is ever delivered to
more than one pull — the delivery log has no duplicate task — and any
two log entries for the same task agree on the worker, so no two
workers ever hold the same task assigned. -/
theorem queue_pull_exclusive (ws : List ℕ) (names : List String)
    (h : names.Nodup) :
    (((runPulls ws (enqueue names)).2.map Prod.snd).Nodup) ∧
    ∀ e1 ∈ (runPulls ws (enqueue names)).2,
      ∀ e2 ∈ (runPulls ws (enqueue names)).2,
        e1.2 = e2.2 → e1.1 = e2.1 := by
  have hlog := runPulls_log ws (enqueue names)
  have hsub : List.Sublist ((runPulls ws (enqueue names)).2.map Prod.snd)
      (queuedIds (enqueue names)) := by
    rw [← hlog]
    exact List.sublist_append_left _ _
  have hq : (queuedIds (enqueue names)).Nodup := by
    rw [queuedIds_enqueue]
    exact h
  have hnodup := hq.sublist hsub
  refine ⟨hnodup, fun e1 h1 e2 h2 heq => ?_⟩
  have := List.inj_on_of_nodup_map hnodup h1 h2 heq
  rw [this]

/-- C7, witness: two distinct tasks, three pull steps by two workers. -/
theorem queue_pull_exclusive_w :
    (["a.mp4", "b.mp4"] : List String).Nodup ∧
    ((runPulls [0, 1, 0] (enqueue ["a.mp4", "b.mp4"])).2.map Prod.snd).Nodup :=
  ⟨by decide, (queue_pull_exclusive [0, 1, 0] ["a.mp4", "b.mp4"] (by decide)).1⟩

/-- C8, confirmed (spec-modelled worker loop and aggregator).  For a
Job whose model loads and whose per-task pipeline outcomes contain
exactly one failure, the final counters are failed = 1 and
completed = N - 1, and the Job reaches the terminal stage complete, not
error: per-task failures never abort the run. -/
theorem single_failure_job_completes (outcomes : List Bool)
    (h : outcomes.count false = 1) :
    (runJob true outcomes).failed = 1 ∧
    (runJob true outcomes).completed = outcomes.length - 1 ∧
    (runJob true outcomes).stage = ProcessingStage.complete := by
  have hp := processTasks_eq outcomes
  have hc := count_true_add_count_false outcomes
  refine ⟨?_, ?_, ?_⟩
  · simp [runJob, hp, h]
  · simp only [runJob, hp, if_pos]
    omega
  · simp [runJob, hp]

/-- C8, witness: three tasks of which exactly the second fails. -/
theorem single_failure_job_completes_w :
    ([true, false, true].count false = 1) ∧
    (runJob true [true, false, true]).failed = 1 ∧
    (runJob true [true, false, true]).completed = 2 ∧
    (runJob true [true, false, true]).stage = ProcessingStage.complete := by
  have h := single_failure_job_completes [true, false, true] (by decide)
  exact ⟨by decide, h.1, h.2.1, h.2.2⟩

/-- C9, confirmed.  For every progress state with total_videos = 0 the
overallProgress getter returns 0 through its explicit guard, before any
of the divisions of the formula are reached, so the getter is defined
on every progress state. -/
theorem overallProgress_total_zero (s : ProgressState)
    (h : s.total_videos = 0) : overallProgress s = 0 := by
  simp [overallProgress, h]

/-- C9, witness: the initial progress state has total_videos = 0 and
overall progress 0. -/
theorem overallProgress_total_zero_w :
    initialProgressState.total_videos = 0 ∧
    overallProgress initialProgressState = 0 :=
  ⟨rfl, overallProgress_total_zero initialProgressState rfl⟩

/-- C10, confirmed.  Applying a WebSocket message merges field-wise:
every field present in the message (a some field) takes the incoming
value and every field absent from the message (a none field) keeps its
stored value — stated for each of the fifteen ProgressState fields via
Option.getD — the wsConnected flag is never changed by the update, and
reset restores exactly the initial progress state (leaving wsConnected
alone, as in the source). -/
theorem updateFromWebSocket_frame (st : ProgressStore) (data : ProgressMsg) :
    (updateFromWebSocket st data).wsConnected = st.wsConnected ∧
    (updateFromWebSocket st data).state.stage
      = data.stage.getD st.state.stage ∧
    (updateFromWebSocket st data).state.current_video
      = data.current_video.getD st.state.current_video ∧
    (updateFromWebSocket st data).state.video_index
      = data.video_index.getD st.state.video_index ∧
    (updateFromWebSocket st data).state.total_videos
      = data.total_videos.getD st.state.total_videos ∧
    (updateFromWebSocket st data).state.tokens_generated
      = data.tokens_generated.getD st.state.tokens_generated ∧
    (updateFromWebSocket st data).state.tokens_per_sec
      = data.tokens_per_sec.getD st.state.tokens_per_sec ∧
    (updateFromWebSocket st data).state.model_loaded
      = data.model_loaded.getD st.state.model_loaded ∧
    (updateFromWebSocket st data).state.vram_used_gb
      = data.vram_used_gb.getD st.state.vram_used_gb ∧
    (updateFromWebSocket st data).state.substage
      = data.substage.getD st.state.substage ∧
    (updateFromWebSocket st data).state.substage_progress
      = data.substage_progress.getD st.state.substage_progress ∧
    (updateFromWebSocket st data).state.error_message
      = data.error_message.getD st.state.error_message ∧
    (updateFromWebSocket st data).state.elapsed_time
      = data.elapsed_time.getD st.state.elapsed_time ∧
    (updateFromWebSocket st data).state.batch_size
      = data.batch_size.getD st.state.batch_size ∧
    (updateFromWebSocket st data).state.workers
      = data.workers.getD st.state.workers ∧
    (updateFromWebSocket st data).state.completed_videos
      = data.completed_videos.getD st.state.completed_videos ∧
    (reset st).state = initialProgressState ∧
    (reset st).wsConnected = st.wsConnected :=
  ⟨rfl, rfl, rfl, rfl, rfl, rfl, rfl, rfl, rfl, rfl, rfl, rfl, rfl, rfl,
   rfl, rfl, rfl, rfl⟩
